import Mathlib

/-!
Shallow embedding of dip_utils/vis_utils.py (image-processing visualization
utilities) and proofs about its claims.

Modelling conventions:
* numpy floating-point values are modelled as rationals (ℚ);
* an image (a numpy array of shape (h, w, c)) is a structure carrying its
  three extents, its numpy dtype kind, and a total indexing function;
* the random generator state consumed by np.random.choice(n, k, replace=False)
  is abstracted as the permutation of [0, n) that the generator would produce:
  the call returns that permutation's first k elements, and raises exactly
  when k > n (numpy: "Cannot take a larger sample than population when
  replace is False");
* the external collaborators (skimage.color conversions, np.cos/np.sin and
  the float constant np.pi) are abstract parameters bundled in `ExtLib`;
  the skimage conversions operate pixelwise;
* matplotlib calls are modelled by recording the data handed to the plotting
  surface (scatter coordinates, point colors, histogram data and bins); a
  raised error is an `Except.error`, in which case nothing is handed to the
  plotting surface.
-/

namespace VisUtils

/-- A 3-component record: one pixel (r,g,b) or one converted triple
(h,s,v / L,a,b). `x0`, `x1`, `x2` are the channel-0/1/2 components. -/
structure Tri where
  x0 : ℚ
  x1 : ℚ
  x2 : ℚ
deriving DecidableEq, Repr

/-- The numpy dtype kinds distinguished by the source: the branch
`if I.dtype == 'float'` against everything else (treated as integer). -/
inductive NpDType where
  | float : NpDType
  | int : NpDType
deriving DecidableEq, Repr

/-- A numpy array of shape (h, w, c): the three extents, the dtype kind and
a total indexing function (reads outside the extents never occur in the
modelled code paths). -/
structure Image where
  h : Nat
  w : Nat
  c : Nat
  dtype : NpDType
  pix : Nat → Nat → Nat → ℚ

/-- Errors surfaced by the modelled operations. `shape` and `range` are the
two assert messages (the spec's ValidationError); `sampling` is the
ValueError np.random.choice raises for an oversized without-replacement
request (the spec's SamplingError). -/
inductive VisErr where
  | shape : VisErr
  | range : VisErr
  | sampling : VisErr
deriving DecidableEq, Repr

/-- `I.ravel()`: the row-major flattening of the whole (h, w, c) array. -/
def imageVals (I : Image) : List ℚ :=
  (List.range (I.h * I.w * I.c)).map fun t =>
    I.pix (t / (I.w * I.c)) (t / I.c % I.w) (t % I.c)

/-- `I[...,ch].ravel()`: the row-major flattening of one channel plane. -/
def chanRavel (I : Image) (ch : Nat) : List ℚ :=
  (List.range (I.h * I.w)).map fun t => I.pix (t / I.w) (t % I.w) ch

/-- Row t of `np.stack([I[...,i].ravel() for i in range(3)]).T`
(the N×3 pixel list): the RGB triple of flattened pixel t. -/
def pixelAt (I : Image) (t : Nat) : Tri :=
  ⟨I.pix (t / I.w) (t % I.w) 0, I.pix (t / I.w) (t % I.w) 1,
    I.pix (t / I.w) (t % I.w) 2⟩

/-- `np.stack([I[...,i].ravel() for i in range(3)]).T` as a list of rows. -/
def stackT (I : Image) : List Tri :=
  (List.range (I.h * I.w)).map fun t => pixelAt I t

/-- `a.min()` of a numpy array: `none` models the ValueError raised on an
empty array. -/
def listMin (l : List ℚ) : Option ℚ :=
  match l with
  | [] => none
  | a :: t => some (t.foldl min a)

/-- `a.max()` of a numpy array: `none` models the ValueError raised on an
empty array. -/
def listMax (l : List ℚ) : Option ℚ :=
  match l with
  | [] => none
  | a :: t => some (t.foldl max a)

/-- The range assert of vis_rgb_cube (lines 22-27): float images must lie in
[0,1], any other dtype in [0,255]. `false` also covers the empty image,
where `I.min()` itself raises. -/
def rangeOK (I : Image) : Bool :=
  match I.dtype with
  | NpDType.float =>
      match listMin (imageVals I), listMax (imageVals I) with
      | some mn, some mx => decide (0 ≤ mn) && decide (mx ≤ 1)
      | _, _ => false
  | NpDType.int =>
      match listMin (imageVals I), listMax (imageVals I) with
      | some mn, some mx => decide (0 ≤ mn) && decide (mx ≤ 255)
      | _, _ => false

/-- `np.random.choice(n, k, replace=False)` (likewise with `np.arange(n)` as
first argument): `rs` abstracts the generator state as the permutation of [0, n)
the generator would produce; the draw is its first k elements. Raises
exactly when k > n. -/
def np_random_choice (rs : List Nat) (n k : Nat) : Except VisErr (List Nat) :=
  if k ≤ n then Except.ok (rs.take k) else Except.error VisErr.sampling

/-- The display-color transform chosen at lines 30-32: divide by 255 unless
`np.max(I) <= 1.0`. The `none` branch is unreachable in the modelled paths
(validation already failed on an empty image). -/
def colrFunc (I : Image) (q : ℚ) : ℚ :=
  match listMax (imageVals I) with
  | some mx => if mx ≤ 1 then q else q / 255
  | none => q

/-- Data handed to `ax.scatter` by vis_rgb_cube, plus the drawn indices. -/
structure RGBCubeOut where
  inds : List Nat
  xs : List ℚ
  ys : List ℚ
  zs : List ℚ
  cs : List Tri
deriving Repr

/-- vis_rgb_cube (lines 15-53). Validation asserts, then
`randomInds = np.random.choice(np.arange(X.shape[0]), NUMPOINTS, replace=False)`
with the local constant `NUMPOINTS = 5000` (line 35) — the `numPoints`
parameter is never read — then the scatter call's data. -/
def vis_rgb_cube (I : Image) (numPoints : Nat) (rs : List Nat) :
    Except VisErr RGBCubeOut :=
  if I.c == 3 then
    if rangeOK I then
      let NUMPOINTS : Nat := 5000
      let X := stackT I
      match np_random_choice rs (I.h * I.w) NUMPOINTS with
      | Except.error e => Except.error e
      | Except.ok randomInds =>
          Except.ok
            { inds := randomInds
              xs := randomInds.map fun t => (X.getD t ⟨0, 0, 0⟩).x0
              ys := randomInds.map fun t => (X.getD t ⟨0, 0, 0⟩).x1
              zs := randomInds.map fun t => (X.getD t ⟨0, 0, 0⟩).x2
              cs := randomInds.map fun t =>
                let p := X.getD t ⟨0, 0, 0⟩
                ⟨colrFunc I p.x0, colrFunc I p.x1, colrFunc I p.x2⟩ }
    else Except.error VisErr.range
  else Except.error VisErr.shape

/-- The external collaborators: skimage.color conversions (pixelwise
functions on triples), numpy's cos/sin as modelled float functions, and the
float constant np.pi. -/
structure ExtLib where
  rgb2hsv : Tri → Tri
  rgb2lab : Tri → Tri
  lab2rgb : Tri → Tri
  cosf : ℚ → ℚ
  sinf : ℚ → ℚ
  pif : ℚ

/-- Channel `ch` of `color.rgb2hsv(I)`, raveled:
`Ihsv[...,ch].ravel()` with the pixelwise conversion. -/
def hsvChan (L : ExtLib) (I : Image) (ch : Nat) : List ℚ :=
  (List.range (I.h * I.w)).map fun t =>
    match ch with
    | 0 => (L.rgb2hsv (pixelAt I t)).x0
    | 1 => (L.rgb2hsv (pixelAt I t)).x1
    | _ => (L.rgb2hsv (pixelAt I t)).x2

/-- `P = 2*np.pi*Ihsv[...,0].ravel()` (line 66). -/
def hsvP (L : ExtLib) (I : Image) : List ℚ :=
  (hsvChan L I 0).map fun hh => 2 * L.pif * hh

/-- `R = Ihsv[...,1].ravel()` (line 67). -/
def hsvR (L : ExtLib) (I : Image) : List ℚ := hsvChan L I 1

/-- `Z = Ihsv[...,2].ravel()` (line 68). -/
def hsvZ (L : ExtLib) (I : Image) : List ℚ := hsvChan L I 2

/-- `X, Y = R*np.cos(P), R*np.sin(P)` (line 71): the X part. -/
def hsvX (L : ExtLib) (I : Image) : List ℚ :=
  List.zipWith (fun r p => r * L.cosf p) (hsvR L I) (hsvP L I)

/-- `X, Y = R*np.cos(P), R*np.sin(P)` (line 71): the Y part. -/
def hsvY (L : ExtLib) (I : Image) : List ℚ :=
  List.zipWith (fun r p => r * L.sinf p) (hsvR L I) (hsvP L I)

/-- All component values of a list of triples, for the
`point_colors.max() > 1` test (line 87). -/
def triListVals (l : List Tri) : List ℚ :=
  l.flatMap fun t => [t.x0, t.x1, t.x2]

/-- The display-color rescale of lines 87-89: when the sampled colors
exceed 1, shift by their minimum then divide by the shifted maximum.
Division by zero (numpy: nan) yields 0 in ℚ; no modelled claim reaches it. -/
def rescaleColors (l : List Tri) : List Tri :=
  match listMin (triListVals l), listMax (triListVals l) with
  | some mn, some mx =>
      if 1 < mx then
        l.map fun t =>
          ⟨(t.x0 - mn) / (mx - mn), (t.x1 - mn) / (mx - mn),
            (t.x2 - mn) / (mx - mn)⟩
      else l
  | _, _ => l

/-- Data handed to `ax.scatter` by the HSV / Lab / YCbCr cube plots, plus
the drawn indices. -/
structure CubeOut where
  inds : List Nat
  xs : List ℚ
  ys : List ℚ
  zs : List ℚ
  cs : List Tri

/-- vis_hsv_cube (lines 56-100): convert to HSV, unroll hue/saturation into
Cartesian x/y, sample `numpoints` of the `X.shape[0]` pixels without
replacement (line 79, before any figure is created), then the scatter data.
An error from the draw propagates uncaught and nothing reaches the plotting
surface. -/
def vis_hsv_cube (L : ExtLib) (I : Image) (numpoints : Nat) (rs : List Nat) :
    Except VisErr CubeOut :=
  let X := hsvX L I
  let Y := hsvY L I
  let Z := hsvZ L I
  let Xrgb := stackT I
  match np_random_choice rs X.length numpoints with
  | Except.error e => Except.error e
  | Except.ok randomInds =>
      Except.ok
        { inds := randomInds
          xs := randomInds.map fun t => X.getD t 0
          ys := randomInds.map fun t => Y.getD t 0
          zs := randomInds.map fun t => Z.getD t 0
          cs := rescaleColors (randomInds.map fun t => Xrgb.getD t ⟨0, 0, 0⟩) }

/-- Channel `ch` of `color.rgb2lab(I)`, raveled: column `ch` of `Xlab`
(lines 108-111). -/
def labChan (L : ExtLib) (I : Image) (ch : Nat) : List ℚ :=
  (List.range (I.h * I.w)).map fun t =>
    match ch with
    | 0 => (L.rgb2lab (pixelAt I t)).x0
    | 1 => (L.rgb2lab (pixelAt I t)).x1
    | _ => (L.rgb2lab (pixelAt I t)).x2

/-- vis_lab_cube (lines 103-143): convert to L*a*b*, sample `numpoints` of
the `Xlab.shape[0]` pixels without replacement, then the scatter call
`ax.scatter(Xlab[randomInds,1], Xlab[randomInds,2], Xlab[randomInds,0], ...)`
(line 137): a on the first axis, b on the second, lightness on the third. -/
def vis_lab_cube (L : ExtLib) (I : Image) (numpoints : Nat) (rs : List Nat) :
    Except VisErr CubeOut :=
  let Xlab1 := labChan L I 1
  let Xlab2 := labChan L I 2
  let Xlab0 := labChan L I 0
  let Xrgb := stackT I
  match np_random_choice rs (I.h * I.w) numpoints with
  | Except.error e => Except.error e
  | Except.ok randomInds =>
      Except.ok
        { inds := randomInds
          xs := randomInds.map fun t => Xlab1.getD t 0
          ys := randomInds.map fun t => Xlab2.getD t 0
          zs := randomInds.map fun t => Xlab0.getD t 0
          cs := rescaleColors (randomInds.map fun t => Xrgb.getD t ⟨0, 0, 0⟩) }

/-- `np.linspace(a, b, num)` with endpoint=True. -/
def np_linspace (a b : ℚ) (num : Nat) : List ℚ :=
  (List.range num).map fun i : Nat => a + (b - a) * (i : ℚ) / ((num : ℚ) - 1)

/-- The bin edges `np.histogram(data, bins=256)` returns (numpy's outer-edge
rule): the data's [min, max] range, widened by 0.5 on each side when
min = max, and the default (0, 1) on empty data; then `bins + 1` equally
spaced boundary values. -/
def histogram_bin_edges (data : List ℚ) (bins : Nat) : List ℚ :=
  match listMin data, listMax data with
  | some mn, some mx =>
      if mn = mx then np_linspace (mn - 1/2) (mx + 1/2) (bins + 1)
      else np_linspace mn mx (bins + 1)
  | _, _ => np_linspace 0 1 (bins + 1)

/-- One `axarr[1].hist(data, allbins, ...)` call: the data handed to the
plotting surface and the bin edges it was told to use. -/
structure HistCall where
  data : List ℚ
  bins : List ℚ
deriving DecidableEq, Repr

/-- Everything vis_hists hands to the plotting surface that the claims
inspect: the shared `allbins` and the three per-channel histogram calls. -/
structure HistsOut where
  allbins : List ℚ
  hr : HistCall
  hg : HistCall
  hb : HistCall
deriving DecidableEq, Repr

/-- vis_hists (lines 184-202): the shape assert, then
`_, allbins = np.histogram(I.ravel(), bins=256)` over the whole image
(all channels combined), then three hist calls all passing `allbins`.
There is no range check in this function. -/
def vis_hists (I : Image) : Except VisErr HistsOut :=
  if I.c == 3 then
    let allbins := histogram_bin_edges (imageVals I) 256
    Except.ok
      { allbins := allbins
        hr := ⟨chanRavel I 0, allbins⟩
        hg := ⟨chanRavel I 1, allbins⟩
        hb := ⟨chanRavel I 2, allbins⟩ }
  else Except.error VisErr.shape

/-- `np.mean` of a list (sum over length; ℚ division by zero yields 0 where
numpy would produce nan — no modelled claim reaches the empty case). -/
def np_mean (l : List ℚ) : ℚ := l.sum / l.length

/-- The elementwise core of lab_uniform (lines 210-213): convert every color
to L*a*b*, overwrite every lightness with the mean lightness, convert back. -/
def lab_uniform_core (L : ExtLib) (lyst : List Tri) : List Tri :=
  let clyst_lab := lyst.map L.rgb2lab
  let m := np_mean (clyst_lab.map Tri.x0)
  clyst_lab.map fun t => L.lab2rgb ⟨m, t.x1, t.x2⟩

/-- The mean lightness lab_uniform writes into every color. -/
def labMean (L : ExtLib) (lyst : List Tri) : ℚ :=
  np_mean ((lyst.map L.rgb2lab).map Tri.x0)

/-- The value `color.lab2rgb(clyst_lab).squeeze()` returns (line 214).
`np.array(lyst, ndmin=3)` has shape (1, n, 3), so squeeze yields an (n, 3)
array of colors for n ≥ 2 but a bare (3,) vector for n = 1; for n = 0 the
initial array has shape (1, 1, 0) and rgb2lab raises on the channel count. -/
inductive LabUniformOut where
  | convError : LabUniformOut
  | single : Tri → LabUniformOut
  | colors : List Tri → LabUniformOut
deriving DecidableEq, Repr

/-- lab_uniform (lines 205-214). -/
def lab_uniform (L : ExtLib) (lyst : List Tri) : LabUniformOut :=
  match lyst with
  | [] => LabUniformOut.convError
  | [a] => LabUniformOut.single ((lab_uniform_core L [a]).headD ⟨0, 0, 0⟩)
  | _ => LabUniformOut.colors (lab_uniform_core L lyst)

/-- The colors present in a lab_uniform result. -/
def LabUniformOut.toColors : LabUniformOut → List Tri
  | LabUniformOut.convError => []
  | LabUniformOut.single t => [t]
  | LabUniformOut.colors l => l

/-- Python's `len()` of the squeezed result array: an (n, 3) array has
len n, while the squeezed (3,) vector of the singleton case has len 3. -/
def LabUniformOut.pyLen : LabUniformOut → Nat
  | LabUniformOut.convError => 0
  | LabUniformOut.single _ => 3
  | LabUniformOut.colors l => l.length

/-- Whether an Except value is a success (no exception was raised). -/
def exceptIsOk {α : Type} : Except VisErr α → Bool
  | Except.ok _ => true
  | Except.error _ => false

/-! ### Concrete instances used to evaluate the development -/

/-- An external library where both L*a*b* conversions are the identity —
a concrete instance satisfying the round-trip hypothesis. -/
def idLib : ExtLib := ⟨id, id, id, id, id, 3⟩

/-- An external library with non-trivial conversions and trig stand-ins. -/
def testLib : ExtLib :=
  ⟨fun t => ⟨t.x1, t.x2, t.x0⟩, fun t => ⟨t.x2, t.x0, t.x1⟩, id,
    fun q => q + 1, fun q => q - 1, 3⟩

/-- A valid 2×2 3-channel integer image of zeros: 4 pixels. -/
def imgFour : Image := ⟨2, 2, 3, NpDType.int, fun _ _ _ => 0⟩

/-- A valid 1×5000 3-channel integer image of zeros: 5000 pixels. -/
def imgBig : Image := ⟨1, 5000, 3, NpDType.int, fun _ _ _ => 0⟩

/-- A 1×1 2-channel image: fails the shape assert. -/
def imgTwoChan : Image := ⟨1, 1, 2, NpDType.int, fun _ _ _ => 0⟩

/-- A 1×1 3-channel float image containing the value 1.5. -/
def imgFloat15 : Image :=
  ⟨1, 1, 3, NpDType.float, fun _ _ ch => if ch = 0 then 3/2 else 0⟩

/-- A 1×1 3-channel image whose three channel values are 0, 1, 2. -/
def imgRamp : Image := ⟨1, 1, 3, NpDType.int, fun _ _ ch => (ch : ℚ)⟩

/-! ### List helper lemmas -/

theorem foldl_min_mem (t : List ℚ) : ∀ a : ℚ, t.foldl min a ∈ a :: t := by
  induction t with
  | nil => intro a; simp
  | cons b t ih =>
      intro a
      have h := ih (min a b)
      simp only [List.foldl_cons]
      rcases List.mem_cons.mp h with h1 | h1
      · rcases min_choice a b with hm | hm
        · rw [h1.trans hm]; simp
        · rw [h1.trans hm]; simp
      · exact List.mem_cons_of_mem a (List.mem_cons_of_mem b h1)

theorem foldl_max_mem (t : List ℚ) : ∀ a : ℚ, t.foldl max a ∈ a :: t := by
  induction t with
  | nil => intro a; simp
  | cons b t ih =>
      intro a
      have h := ih (max a b)
      simp only [List.foldl_cons]
      rcases List.mem_cons.mp h with h1 | h1
      · rcases max_choice a b with hm | hm
        · rw [h1.trans hm]; simp
        · rw [h1.trans hm]; simp
      · exact List.mem_cons_of_mem a (List.mem_cons_of_mem b h1)

theorem foldl_max_base (t : List ℚ) : ∀ a : ℚ, a ≤ t.foldl max a := by
  induction t with
  | nil => intro a; simp
  | cons b t ih =>
      intro a
      simp only [List.foldl_cons]
      exact le_trans (le_max_left a b) (ih (max a b))

theorem foldl_min_base (t : List ℚ) : ∀ a : ℚ, t.foldl min a ≤ a := by
  induction t with
  | nil => intro a; simp
  | cons b t ih =>
      intro a
      simp only [List.foldl_cons]
      exact le_trans (ih (min a b)) (min_le_left a b)

theorem le_foldl_max (t : List ℚ) : ∀ a x : ℚ, x ∈ a :: t → x ≤ t.foldl max a := by
  induction t with
  | nil =>
      intro a x hx
      simp only [List.mem_singleton] at hx
      simp [hx]
  | cons b t ih =>
      intro a x hx
      simp only [List.foldl_cons]
      rcases List.mem_cons.mp hx with h1 | h1
      · subst h1
        exact le_trans (le_max_left x b) (foldl_max_base t (max x b))
      · rcases List.mem_cons.mp h1 with h2 | h2
        · subst h2
          exact le_trans (le_max_right a x) (foldl_max_base t (max a x))
        · exact ih (max a b) x (List.mem_cons_of_mem _ h2)

theorem foldl_min_le (t : List ℚ) : ∀ a x : ℚ, x ∈ a :: t → t.foldl min a ≤ x := by
  induction t with
  | nil =>
      intro a x hx
      simp only [List.mem_singleton] at hx
      simp [hx]
  | cons b t ih =>
      intro a x hx
      simp only [List.foldl_cons]
      rcases List.mem_cons.mp hx with h1 | h1
      · subst h1
        exact le_trans (foldl_min_base t (min x b)) (min_le_left x b)
      · rcases List.mem_cons.mp h1 with h2 | h2
        · subst h2
          exact le_trans (foldl_min_base t (min a x)) (min_le_right a x)
        · exact ih (min a b) x (List.mem_cons_of_mem _ h2)

theorem listMin_spec (l : List ℚ) (hne : l ≠ []) :
    ∃ mn, listMin l = some mn ∧ mn ∈ l ∧ ∀ x ∈ l, mn ≤ x := by
  match l with
  | [] => exact absurd rfl hne
  | a :: t =>
      refine ⟨t.foldl min a, rfl, foldl_min_mem t a, ?_⟩
      intro x hx
      exact foldl_min_le t a x hx

theorem listMax_spec (l : List ℚ) (hne : l ≠ []) :
    ∃ mx, listMax l = some mx ∧ mx ∈ l ∧ ∀ x ∈ l, x ≤ mx := by
  match l with
  | [] => exact absurd rfl hne
  | a :: t =>
      refine ⟨t.foldl max a, rfl, foldl_max_mem t a, ?_⟩
      intro x hx
      exact le_foldl_max t a x hx

theorem getD_map {α β : Type} (f : α → β) (d : β) (dd : α) :
    ∀ (l : List α) (t : Nat), t < l.length →
      (l.map f).getD t d = f (l.getD t dd) := by
  intro l
  induction l with
  | nil => intro t ht; simp at ht
  | cons a l ih =>
      intro t ht
      cases t with
      | zero => simp [List.getD_cons_zero]
      | succ s =>
          simp only [List.map_cons, List.getD_cons_succ]
          exact ih s (by simpa using Nat.lt_of_succ_lt_succ ht)

theorem getD_range : ∀ (n t : Nat), t < n → (List.range n).getD t 0 = t := by
  intro n
  induction n with
  | zero => intro t ht; omega
  | succ m ih =>
      intro t ht
      rw [List.range_succ_eq_map]
      cases t with
      | zero => simp [List.getD_cons_zero]
      | succ s =>
          rw [List.getD_cons_succ]
          have hs : s < m := by omega
          rw [getD_map Nat.succ 0 0 (List.range m) s (by simpa using hs)]
          rw [ih s hs]

theorem getD_map_range {α : Type} (f : Nat → α) (d : α) (n t : Nat)
    (ht : t < n) : ((List.range n).map f).getD t d = f t := by
  rw [getD_map f d 0 (List.range n) t (by simpa using ht), getD_range n t ht]

theorem getD_zipWith (f : ℚ → ℚ → ℚ) :
    ∀ (l1 l2 : List ℚ) (t : Nat), t < l1.length → t < l2.length →
      (List.zipWith f l1 l2).getD t 0 = f (l1.getD t 0) (l2.getD t 0) := by
  intro l1
  induction l1 with
  | nil => intro l2 t ht _; simp at ht
  | cons a l1 ih =>
      intro l2 t ht1 ht2
      cases l2 with
      | nil => simp at ht2
      | cons b l2 =>
          cases t with
          | zero => simp [List.getD_cons_zero]
          | succ s =>
              simp only [List.zipWith_cons_cons, List.getD_cons_succ]
              exact ih l2 s (by simpa using Nat.lt_of_succ_lt_succ ht1)
                (by simpa using Nat.lt_of_succ_lt_succ ht2)

/-! ### Lengths of the modelled arrays -/

theorem imageVals_length (I : Image) :
    (imageVals I).length = I.h * I.w * I.c := by
  simp [imageVals]

theorem chanRavel_length (I : Image) (ch : Nat) :
    (chanRavel I ch).length = I.h * I.w := by
  simp [chanRavel]

theorem stackT_length (I : Image) : (stackT I).length = I.h * I.w := by
  simp [stackT]

theorem hsvChan_length (L : ExtLib) (I : Image) (ch : Nat) :
    (hsvChan L I ch).length = I.h * I.w := by
  simp [hsvChan]

theorem hsvP_length (L : ExtLib) (I : Image) :
    (hsvP L I).length = I.h * I.w := by
  simp [hsvP, hsvChan_length]

theorem hsvR_length (L : ExtLib) (I : Image) :
    (hsvR L I).length = I.h * I.w := by
  simp [hsvR, hsvChan_length]

theorem hsvX_length (L : ExtLib) (I : Image) :
    (hsvX L I).length = I.h * I.w := by
  simp [hsvX, hsvR_length, hsvP_length]

theorem hsvY_length (L : ExtLib) (I : Image) :
    (hsvY L I).length = I.h * I.w := by
  simp [hsvY, hsvR_length, hsvP_length]

theorem labChan_length (L : ExtLib) (I : Image) (ch : Nat) :
    (labChan L I ch).length = I.h * I.w := by
  simp [labChan]

/-! ### Sampler helper lemmas -/

theorem np_random_choice_ok_spec (rs : List Nat) (n k : Nat)
    (hperm : rs.Perm (List.range n)) (hk : k ≤ n) :
    np_random_choice rs n k = Except.ok (rs.take k) ∧
      (rs.take k).length = k ∧ (rs.take k).Nodup ∧
      ∀ x ∈ rs.take k, x < n := by
  have hlen : rs.length = n := by
    have := hperm.length_eq
    simpa using this
  refine ⟨by simp [np_random_choice, hk], ?_, ?_, ?_⟩
  · simp [List.length_take, hlen, hk]
  · have hnd : rs.Nodup := hperm.nodup_iff.mpr (List.nodup_range n)
    exact hnd.sublist (List.take_sublist k rs)
  · intro x hx
    have hx2 : x ∈ rs := List.mem_of_mem_take hx
    have hx3 : x ∈ List.range n := hperm.mem_iff.mp hx2
    exact List.mem_range.mp hx3

theorem np_random_choice_err (rs : List Nat) (n k : Nat) (hk : n < k) :
    np_random_choice rs n k = Except.error VisErr.sampling := by
  simp [np_random_choice, Nat.not_le.mpr hk]

/-! ### Validation helper lemmas -/

/-- The upper bound the range assert checks for each dtype kind. -/
def dtypeBound : NpDType → ℚ
  | NpDType.float => 1
  | NpDType.int => 255

theorem rangeOK_true_of_bounds (I : Image) (hne : imageVals I ≠ [])
    (hb : ∀ q ∈ imageVals I, 0 ≤ q ∧ q ≤ dtypeBound I.dtype) :
    rangeOK I = true := by
  obtain ⟨mn, hmn, hmnm, _⟩ := listMin_spec (imageVals I) hne
  obtain ⟨mx, hmx, hmxm, _⟩ := listMax_spec (imageVals I) hne
  have h1 : 0 ≤ mn := (hb mn hmnm).1
  have h2 : mx ≤ dtypeBound I.dtype := (hb mx hmxm).2
  cases hd : I.dtype with
  | float =>
      rw [hd] at h2
      simp only [dtypeBound] at h2
      simp only [rangeOK, hd, hmn, hmx, Bool.and_eq_true, decide_eq_true_eq]
      exact ⟨h1, h2⟩
  | int =>
      rw [hd] at h2
      simp only [dtypeBound] at h2
      simp only [rangeOK, hd, hmn, hmx, Bool.and_eq_true, decide_eq_true_eq]
      exact ⟨h1, h2⟩

theorem rangeOK_false_of_big_float (I : Image) (hd : I.dtype = NpDType.float)
    (hmem : (3 : ℚ)/2 ∈ imageVals I) : rangeOK I = false := by
  have hne : imageVals I ≠ [] := List.ne_nil_of_mem hmem
  obtain ⟨mx, hmx, _, hub⟩ := listMax_spec (imageVals I) hne
  have h32 : (3 : ℚ)/2 ≤ mx := hub _ hmem
  have hnot : ¬ mx ≤ 1 := by
    intro hle
    have : (3 : ℚ)/2 ≤ 1 := le_trans h32 hle
    norm_num at this
  obtain ⟨mn, hmn, _, _⟩ := listMin_spec (imageVals I) hne
  simp only [rangeOK, hd, hmn, hmx]
  simp [hnot]

/-! ### vis_rgb_cube helper lemmas -/

theorem vis_rgb_cube_ok_spec (I : Image) (numPoints : Nat) (rs : List Nat)
    (hc : I.c = 3) (hn : 5000 ≤ I.h * I.w)
    (hperm : rs.Perm (List.range (I.h * I.w)))
    (hb : ∀ q ∈ imageVals I, 0 ≤ q ∧ q ≤ dtypeBound I.dtype) :
    ∃ out, vis_rgb_cube I numPoints rs = Except.ok out ∧
      out.inds = rs.take 5000 := by
  have hne : imageVals I ≠ [] := by
    intro h0
    have hl := imageVals_length I
    rw [h0, hc] at hl
    simp only [List.length_nil] at hl
    omega
  have hro : rangeOK I = true := rangeOK_true_of_bounds I hne hb
  have hkey : np_random_choice rs (I.h * I.w) 5000 =
      Except.ok (rs.take 5000) :=
    (np_random_choice_ok_spec rs (I.h * I.w) 5000 hperm hn).1
  have heq : vis_rgb_cube I numPoints rs = Except.ok
      { inds := rs.take 5000
        xs := (rs.take 5000).map fun t => ((stackT I).getD t ⟨0, 0, 0⟩).x0
        ys := (rs.take 5000).map fun t => ((stackT I).getD t ⟨0, 0, 0⟩).x1
        zs := (rs.take 5000).map fun t => ((stackT I).getD t ⟨0, 0, 0⟩).x2
        cs := (rs.take 5000).map fun t =>
          let p := (stackT I).getD t ⟨0, 0, 0⟩
          ⟨colrFunc I p.x0, colrFunc I p.x1, colrFunc I p.x2⟩ } := by
    simp only [vis_rgb_cube, hc, hro, hkey, beq_self_eq_true, if_true]
  exact ⟨_, heq, rfl⟩

theorem getD_mem {α : Type} (d : α) :
    ∀ (l : List α) (m : Nat), m < l.length → l.getD m d ∈ l := by
  intro l
  induction l with
  | nil => intro m hm; simp at hm
  | cons a l ih =>
      intro m hm
      cases m with
      | zero => simp [List.getD_cons_zero]
      | succ s =>
          rw [List.getD_cons_succ]
          exact List.mem_cons_of_mem a
            (ih s (by simpa using Nat.lt_of_succ_lt_succ hm))

theorem headD_mem {α : Type} (d : α) (l : List α) (hne : l ≠ []) :
    l.headD d ∈ l := by
  cases l with
  | nil => exact absurd rfl hne
  | cons a t => simp [List.headD_cons]

/-! ### Histogram helper lemmas -/

theorem np_linspace_length (a b : ℚ) (num : Nat) :
    (np_linspace a b num).length = num := by
  simp only [np_linspace, List.length_map, List.length_range]

theorem np_linspace_first (a b : ℚ) (num : Nat) (h : 0 < num) :
    (np_linspace a b num).getD 0 0 = a := by
  simp only [np_linspace]
  rw [getD_map_range _ 0 num 0 h]
  norm_num

theorem np_linspace_last (a b : ℚ) :
    (np_linspace a b 257).getD 256 0 = b := by
  simp only [np_linspace]
  rw [getD_map_range _ 0 257 256 (by norm_num)]
  norm_num

/-! ### lab_uniform helper lemmas -/

theorem lab_uniform_core_length (L : ExtLib) (lyst : List Tri) :
    (lab_uniform_core L lyst).length = lyst.length := by
  simp [lab_uniform_core]

theorem lab_uniform_core_lightness (L : ExtLib) (lyst : List Tri)
    (hinv : ∀ t, L.rgb2lab (L.lab2rgb t) = t) :
    ∀ c ∈ lab_uniform_core L lyst, (L.rgb2lab c).x0 = labMean L lyst := by
  intro c hc
  simp only [lab_uniform_core, List.mem_map] at hc
  obtain ⟨t, _, ht⟩ := hc
  rw [← ht, hinv]
  rfl

theorem lab_uniform_core_lightness_map (L : ExtLib) (lyst : List Tri)
    (hinv : ∀ t, L.rgb2lab (L.lab2rgb t) = t) :
    ((lab_uniform_core L lyst).map fun c => (L.rgb2lab c).x0)
      = List.replicate lyst.length (labMean L lyst) := by
  rw [List.eq_replicate_iff]
  constructor
  · simp [lab_uniform_core_length]
  · intro b hb
    obtain ⟨c, hc, hcb⟩ := List.mem_map.mp hb
    rw [← hcb]
    exact lab_uniform_core_lightness L lyst hinv c hc

theorem np_mean_replicate (n : Nat) (m : ℚ) (hn : n ≠ 0) :
    np_mean (List.replicate n m) = m := by
  simp only [np_mean, List.sum_replicate, List.length_replicate, nsmul_eq_mul]
  rw [mul_comm, mul_div_assoc, div_self (by exact_mod_cast hn), mul_one]

theorem labMean_eq (L : ExtLib) (lyst : List Tri) :
    labMean L lyst = np_mean (lyst.map fun c => (L.rgb2lab c).x0) := by
  simp only [labMean, List.map_map]
  rfl

theorem lab_uniform_core_getD (L : ExtLib) (lyst : List Tri) (i : Nat)
    (hi : i < lyst.length) :
    (lab_uniform_core L lyst).getD i ⟨0, 0, 0⟩ =
      L.lab2rgb ⟨labMean L lyst, (L.rgb2lab (lyst.getD i ⟨0, 0, 0⟩)).x1,
        (L.rgb2lab (lyst.getD i ⟨0, 0, 0⟩)).x2⟩ := by
  simp only [lab_uniform_core, labMean]
  rw [getD_map
    (fun t : Tri => L.lab2rgb
      ⟨np_mean (List.map Tri.x0 (List.map L.rgb2lab lyst)), t.x1, t.x2⟩)
    ⟨0, 0, 0⟩ ⟨0, 0, 0⟩ (lyst.map L.rgb2lab) i (by simpa using hi)]
  rw [getD_map L.rgb2lab ⟨0, 0, 0⟩ ⟨0, 0, 0⟩ lyst i hi]

theorem lab_uniform_core_idem (L : ExtLib) (lyst : List Tri)
    (hinv : ∀ t, L.rgb2lab (L.lab2rgb t) = t) (hne : lyst.length ≠ 0) :
    ((lab_uniform_core L (lab_uniform_core L lyst)).map
        fun c => (L.rgb2lab c).x0)
      = (lab_uniform_core L lyst).map fun c => (L.rgb2lab c).x0 := by
  have hm : labMean L (lab_uniform_core L lyst) = labMean L lyst := by
    rw [labMean_eq, lab_uniform_core_lightness_map L lyst hinv,
      np_mean_replicate _ _ hne]
  rw [lab_uniform_core_lightness_map L (lab_uniform_core L lyst) hinv,
    lab_uniform_core_lightness_map L lyst hinv, lab_uniform_core_length, hm]

theorem lab_uniform_eq_colors (L : ExtLib) (lyst : List Tri)
    (h2 : 2 ≤ lyst.length) :
    lab_uniform L lyst = LabUniformOut.colors (lab_uniform_core L lyst) := by
  cases lyst with
  | nil => simp at h2
  | cons a l =>
      cases l with
      | nil => simp at h2
      | cons b t => rfl

/-! ### vis_hists helper lemmas -/

theorem vis_hists_eq (I : Image) (hc : I.c = 3) :
    vis_hists I = Except.ok
      { allbins := histogram_bin_edges (imageVals I) 256
        hr := ⟨chanRavel I 0, histogram_bin_edges (imageVals I) 256⟩
        hg := ⟨chanRavel I 1, histogram_bin_edges (imageVals I) 256⟩
        hb := ⟨chanRavel I 2, histogram_bin_edges (imageVals I) 256⟩ } := by
  simp only [vis_hists, hc, beq_self_eq_true, if_true]

/-- The value 1.5 occurs among the raveled values of `imgFloat15`. -/
theorem mem_imageVals_imgFloat15 : (3 : ℚ)/2 ∈ imageVals imgFloat15 := by
  simp only [imageVals]
  refine List.mem_map.mpr ⟨0, ?_, ?_⟩
  · decide
  · norm_num [imgFloat15]

/-! ### Claim C1 -/

/-- **C1, counterexample.** The claim says vis_rgb_cube never raises on a
valid in-range 3-channel image and samples min(k, pixelCount) indices. On
the valid 2×2 integer image of zeros with k = 4, the code instead tries to
draw the hard-wired 5000 indices from 4 pixels without replacement and the
draw raises, so the claim is false. -/
theorem claim1_counterexample :
    imgFour.c = 3 ∧ rangeOK imgFour = true ∧
      vis_rgb_cube imgFour 4 (List.range 4) = Except.error VisErr.sampling := by
  refine ⟨rfl, rfl, rfl⟩

/-- **C1, amended.** For every valid 3-channel image with values in range
and at least 5000 pixels, vis_rgb_cube does not raise and samples exactly
5000 distinct pixel indices without replacement, regardless of the
requested count; with fewer than 5000 pixels the draw raises. -/
theorem claim1_theorem (I : Image) (numPoints : Nat) (rs : List Nat)
    (hc : I.c = 3) (hn : 5000 ≤ I.h * I.w)
    (hperm : rs.Perm (List.range (I.h * I.w)))
    (hb : ∀ q ∈ imageVals I, 0 ≤ q ∧ q ≤ dtypeBound I.dtype) :
    ∃ out, vis_rgb_cube I numPoints rs = Except.ok out ∧
      out.inds.length = 5000 ∧ out.inds.Nodup ∧
      ∀ x ∈ out.inds, x < I.h * I.w := by
  obtain ⟨out, heq, hinds⟩ := vis_rgb_cube_ok_spec I numPoints rs hc hn hperm hb
  obtain ⟨_, hlen, hnd, hmem⟩ :=
    np_random_choice_ok_spec rs (I.h * I.w) 5000 hperm hn
  refine ⟨out, heq, ?_, ?_, ?_⟩
  · rw [hinds]; exact hlen
  · rw [hinds]; exact hnd
  · rw [hinds]; exact hmem

/-- **C1, witness.** The amended theorem applied to the 1×5000 zero image
with requested count 7. -/
theorem claim1_witness :
    ∃ out, vis_rgb_cube imgBig 7 (List.range (1 * 5000)) = Except.ok out ∧
      out.inds.length = 5000 ∧ out.inds.Nodup ∧
      ∀ x ∈ out.inds, x < imgBig.h * imgBig.w :=
  claim1_theorem imgBig 7 (List.range (1 * 5000)) rfl (by decide)
    (List.Perm.refl _)
    (by
      intro q hq
      simp only [imageVals, imgBig, List.mem_map, List.mem_range] at hq
      obtain ⟨t, _, ht⟩ := hq
      rw [← ht]
      norm_num [imgBig, dtypeBound])

/-! ### Claim C2 -/

/-- **C2.** The sampling behaviour of vis_rgb_cube does not depend on its
numPoints parameter: under the same abstracted random state the result is
identical for any two requested counts, and (whenever the draw succeeds)
the drawn index set has the fixed size 5000. -/
theorem claim2_theorem (I : Image) (k1 k2 : Nat) (rs : List Nat)
    (hc : I.c = 3) (hn : 5000 ≤ I.h * I.w)
    (hperm : rs.Perm (List.range (I.h * I.w)))
    (hb : ∀ q ∈ imageVals I, 0 ≤ q ∧ q ≤ dtypeBound I.dtype) :
    vis_rgb_cube I k1 rs = vis_rgb_cube I k2 rs ∧
      ∃ out, vis_rgb_cube I k1 rs = Except.ok out ∧
        out.inds.length = 5000 := by
  refine ⟨rfl, ?_⟩
  obtain ⟨out, heq, hinds⟩ := vis_rgb_cube_ok_spec I k1 rs hc hn hperm hb
  obtain ⟨_, hlen, _, _⟩ :=
    np_random_choice_ok_spec rs (I.h * I.w) 5000 hperm hn
  exact ⟨out, heq, by rw [hinds]; exact hlen⟩

/-- **C2, witness.** Requested counts 1 and 9999 on the 1×5000 zero image
under the same random state. -/
theorem claim2_witness :
    vis_rgb_cube imgBig 1 (List.range (1 * 5000)) =
        vis_rgb_cube imgBig 9999 (List.range (1 * 5000)) ∧
      ∃ out, vis_rgb_cube imgBig 1 (List.range (1 * 5000)) = Except.ok out ∧
        out.inds.length = 5000 :=
  claim2_theorem imgBig 1 9999 (List.range (1 * 5000)) rfl (by decide)
    (List.Perm.refl _)
    (by
      intro q hq
      simp only [imageVals, imgBig, List.mem_map, List.mem_range] at hq
      obtain ⟨t, _, ht⟩ := hq
      rw [← ht]
      norm_num [imgBig, dtypeBound])

/-! ### Claim C3 -/

/-- **C3, counterexample.** The claim says vis_hists raises a
ValidationError for every float image containing the value 1.5; but
vis_hists checks only the channel count, and on the 1×1 3-channel float
image containing 1.5 it completes without raising. -/
theorem claim3_counterexample :
    imgFloat15.c = 3 ∧ imgFloat15.dtype = NpDType.float ∧
      (3 : ℚ)/2 ∈ imageVals imgFloat15 ∧
      exceptIsOk (vis_hists imgFloat15) = true := by
  refine ⟨rfl, rfl, mem_imageVals_imgFloat15, rfl⟩

/-- **C3, amended.** Both vis_rgb_cube and vis_hists raise the shape
ValidationError on a 2-channel or 4-channel image; vis_rgb_cube raises the
range ValidationError on an (otherwise well-shaped) float image containing
the value 1.5; vis_hists performs no range check and does not raise on such
an image. -/
theorem claim3_theorem (I J : Image) (k1 k2 : Nat) (rs1 rs2 : List Nat)
    (hIc : I.c = 2 ∨ I.c = 4)
    (hJc : J.c = 3) (hJd : J.dtype = NpDType.float)
    (hJv : (3 : ℚ)/2 ∈ imageVals J) :
    vis_rgb_cube I k1 rs1 = Except.error VisErr.shape ∧
      vis_hists I = Except.error VisErr.shape ∧
      vis_rgb_cube J k2 rs2 = Except.error VisErr.range ∧
      exceptIsOk (vis_hists J) = true := by
  have hIc3 : I.c ≠ 3 := by rcases hIc with h | h <;> omega
  have hro : rangeOK J = false := rangeOK_false_of_big_float J hJd hJv
  refine ⟨?_, ?_, ?_, ?_⟩
  · simp [vis_rgb_cube, hIc3]
  · simp [vis_hists, hIc3]
  · simp [vis_rgb_cube, hJc, hro]
  · simp [vis_hists, hJc, exceptIsOk]

/-- **C3, witness.** The amended theorem applied to a 1×1 2-channel image
and the 1×1 3-channel float image containing 1.5. -/
theorem claim3_witness :
    vis_rgb_cube imgTwoChan 0 [] = Except.error VisErr.shape ∧
      vis_hists imgTwoChan = Except.error VisErr.shape ∧
      vis_rgb_cube imgFloat15 0 [] = Except.error VisErr.range ∧
      exceptIsOk (vis_hists imgFloat15) = true :=
  claim3_theorem imgTwoChan imgFloat15 0 0 [] [] (Or.inl rfl) rfl rfl
    mem_imageVals_imgFloat15

/-! ### Claim C4 -/

/-- **C4.** For every non-empty list of in-range RGB triples, every color
lab_uniform returns, when re-converted by the (round-trip faithful)
perceptual conversion, has lightness equal to the mean of the input
lightness values — exactly, hence within any tolerance. -/
theorem claim4_theorem (L : ExtLib) (lyst : List Tri) (hne : lyst ≠ [])
    (hrange : ∀ t ∈ lyst, 0 ≤ t.x0 ∧ t.x0 ≤ 1 ∧ 0 ≤ t.x1 ∧ t.x1 ≤ 1 ∧
      0 ≤ t.x2 ∧ t.x2 ≤ 1)
    (hinv : ∀ t, L.rgb2lab (L.lab2rgb t) = t) :
    ∀ c ∈ (lab_uniform L lyst).toColors,
      (L.rgb2lab c).x0 = labMean L lyst := by
  intro c hc
  cases lyst with
  | nil => exact absurd rfl hne
  | cons a l =>
      cases l with
      | nil =>
          simp only [lab_uniform, LabUniformOut.toColors,
            List.mem_singleton] at hc
          subst hc
          exact lab_uniform_core_lightness L [a] hinv _
            (headD_mem _ _ (by simp [lab_uniform_core]))
      | cons b t =>
          simp only [lab_uniform, LabUniformOut.toColors] at hc
          exact lab_uniform_core_lightness L (a :: b :: t) hinv c hc

/-- **C4, witness.** The identity-conversion library on a two-color list:
the first output color (the triple with the mean lightness 1/2) recovers
the mean input lightness. -/
theorem claim4_witness :
    (idLib.rgb2lab ⟨1/2, 0, 0⟩).x0 = labMean idLib [⟨0, 0, 0⟩, ⟨1, 0, 0⟩] :=
  claim4_theorem idLib [⟨0, 0, 0⟩, ⟨1, 0, 0⟩] (by decide) (by decide)
    (fun t => rfl) ⟨1/2, 0, 0⟩
    (by
      have h : (lab_uniform idLib [⟨0, 0, 0⟩, ⟨1, 0, 0⟩]).toColors
          = [⟨1/2, 0, 0⟩, ⟨1/2, 0, 0⟩] := by
        simp [lab_uniform, lab_uniform_core, LabUniformOut.toColors, np_mean,
          idLib]
      rw [h]
      exact List.mem_cons_self _ _)

/-! ### Claim C5 -/

/-- **C5, counterexample.** The claim says lab_uniform returns a list of
the same length for every color list; but the final `.squeeze()` collapses
the (1, 1, 3) result of a singleton list into a bare (3,) vector, whose
Python length is 3, not 1. -/
theorem claim5_counterexample :
    (lab_uniform idLib [⟨0, 0, 0⟩]).pyLen = 3 ∧
      ([(⟨0, 0, 0⟩ : Tri)] : List Tri).length = 1 :=
  ⟨rfl, rfl⟩

/-- **C5, amended.** For every color list of length at least 2 (where the
squeeze keeps a list of colors), lab_uniform returns a same-length list
whose i-th entry is computed from the i-th input, and applying it twice
leaves every color's recovered lightness unchanged; a singleton list is
squeezed to a bare 3-vector and the empty list fails in the conversion. -/
theorem claim5_theorem (L : ExtLib) (lyst : List Tri) (h2 : 2 ≤ lyst.length)
    (hinv : ∀ t, L.rgb2lab (L.lab2rgb t) = t) :
    (lab_uniform L lyst).pyLen = lyst.length ∧
      (∀ i, i < lyst.length →
        (lab_uniform L lyst).toColors.getD i ⟨0, 0, 0⟩ =
          L.lab2rgb ⟨labMean L lyst,
            (L.rgb2lab (lyst.getD i ⟨0, 0, 0⟩)).x1,
            (L.rgb2lab (lyst.getD i ⟨0, 0, 0⟩)).x2⟩) ∧
      ((lab_uniform L ((lab_uniform L lyst).toColors)).toColors.map
          fun c => (L.rgb2lab c).x0)
        = ((lab_uniform L lyst).toColors.map
            fun c => (L.rgb2lab c).x0) := by
  have hcol := lab_uniform_eq_colors L lyst h2
  have hlen := lab_uniform_core_length L lyst
  have h2b : 2 ≤ (lab_uniform_core L lyst).length := by rw [hlen]; exact h2
  have hcol2 := lab_uniform_eq_colors L (lab_uniform_core L lyst) h2b
  refine ⟨?_, ?_, ?_⟩
  · rw [hcol]
    simp only [LabUniformOut.pyLen]
    exact hlen
  · intro i hi
    rw [hcol]
    simp only [LabUniformOut.toColors]
    exact lab_uniform_core_getD L lyst i hi
  · rw [hcol]
    simp only [LabUniformOut.toColors]
    rw [hcol2]
    simp only [LabUniformOut.toColors]
    exact lab_uniform_core_idem L lyst hinv (by omega)

/-- **C5, witness.** The amended theorem on a two-color list under the
identity-conversion library. -/
theorem claim5_witness :
    (lab_uniform idLib [⟨0, 0, 0⟩, ⟨1, 0, 0⟩]).pyLen =
        ([(⟨0, 0, 0⟩ : Tri), ⟨1, 0, 0⟩] : List Tri).length ∧
      (∀ i, i < ([(⟨0, 0, 0⟩ : Tri), ⟨1, 0, 0⟩] : List Tri).length →
        (lab_uniform idLib [⟨0, 0, 0⟩, ⟨1, 0, 0⟩]).toColors.getD i ⟨0, 0, 0⟩ =
          idLib.lab2rgb ⟨labMean idLib [⟨0, 0, 0⟩, ⟨1, 0, 0⟩],
            (idLib.rgb2lab (([(⟨0, 0, 0⟩ : Tri), ⟨1, 0, 0⟩] : List Tri).getD
              i ⟨0, 0, 0⟩)).x1,
            (idLib.rgb2lab (([(⟨0, 0, 0⟩ : Tri), ⟨1, 0, 0⟩] : List Tri).getD
              i ⟨0, 0, 0⟩)).x2⟩) ∧
      ((lab_uniform idLib
          ((lab_uniform idLib [⟨0, 0, 0⟩, ⟨1, 0, 0⟩]).toColors)).toColors.map
            fun c => (idLib.rgb2lab c).x0)
        = ((lab_uniform idLib [⟨0, 0, 0⟩, ⟨1, 0, 0⟩]).toColors.map
            fun c => (idLib.rgb2lab c).x0) :=
  claim5_theorem idLib [⟨0, 0, 0⟩, ⟨1, 0, 0⟩] (by decide) (fun t => rfl)

/-! ### Claim C6 -/

/-- **C6.** When the requested count exceeds the pixel count, the draw in
vis_hsv_cube fails: the whole operation returns exactly the error the
without-replacement random-choice primitive raises (propagated uncaught),
and no scatter data is produced. -/
theorem claim6_theorem (L : ExtLib) (I : Image) (k : Nat) (rs : List Nat)
    (hk : I.h * I.w < k) :
    vis_hsv_cube L I k rs = Except.error VisErr.sampling ∧
      np_random_choice rs (hsvX L I).length k =
        Except.error VisErr.sampling := by
  have hx : (hsvX L I).length = I.h * I.w := hsvX_length L I
  have herr := np_random_choice_err rs (I.h * I.w) k hk
  constructor
  · simp only [vis_hsv_cube, hx, herr]
  · rw [hx]
    exact herr

/-- **C6, witness.** Requesting 2 samples from a 1-pixel image. -/
theorem claim6_witness :
    vis_hsv_cube testLib imgRamp 2 [0] = Except.error VisErr.sampling ∧
      np_random_choice [0] (hsvX testLib imgRamp).length 2 =
        Except.error VisErr.sampling :=
  claim6_theorem testLib imgRamp 2 [0] (by decide)

/-! ### Claim C7 -/

/-- **C7.** For every pixel count n and requested count k ≤ n, the sampler
returns exactly k unique indices, each in [0, n). -/
theorem claim7_theorem (rs : List Nat) (n k : Nat)
    (hperm : rs.Perm (List.range n)) (hk : k ≤ n) :
    ∃ l, np_random_choice rs n k = Except.ok l ∧ l.length = k ∧
      l.Nodup ∧ ∀ x ∈ l, x < n := by
  obtain ⟨h1, h2, h3, h4⟩ := np_random_choice_ok_spec rs n k hperm hk
  exact ⟨rs.take k, h1, h2, h3, h4⟩

/-- **C7, witness.** Drawing 2 of 3 indices from a concrete permutation. -/
theorem claim7_witness :
    ∃ l, np_random_choice [2, 0, 1] 3 2 = Except.ok l ∧ l.length = 2 ∧
      l.Nodup ∧ ∀ x ∈ l, x < 3 :=
  claim7_theorem [2, 0, 1] 3 2 (by decide) (by decide)

/-! ### Claim C8 -/

/-- **C8.** For every 3-channel image (whose combined values are not all
equal), vis_hists computes one bin-edge set of 257 boundary values running
from the minimum to the maximum of all three channels combined, and passes
that same bin-edge set to the red, green, and blue histogram calls. -/
theorem claim8_theorem (I : Image) (hc : I.c = 3) (mn mx : ℚ)
    (hmn : listMin (imageVals I) = some mn)
    (hmx : listMax (imageVals I) = some mx) :
    ∃ out, vis_hists I = Except.ok out ∧
      out.allbins.length = 257 ∧
      out.hr.bins = out.allbins ∧ out.hg.bins = out.allbins ∧
      out.hb.bins = out.allbins ∧
      (mn < mx →
        out.allbins.getD 0 0 = mn ∧ out.allbins.getD 256 0 = mx) := by
  refine ⟨_, vis_hists_eq I hc, ?_, rfl, rfl, rfl, ?_⟩
  · simp only [histogram_bin_edges, hmn, hmx]
    by_cases he : mn = mx
    · rw [if_pos he]
      exact np_linspace_length _ _ 257
    · rw [if_neg he]
      exact np_linspace_length _ _ 257
  · intro hlt
    have hbe : histogram_bin_edges (imageVals I) 256 =
        np_linspace mn mx 257 := by
      simp only [histogram_bin_edges, hmn, hmx]
      rw [if_neg (ne_of_lt hlt)]
    constructor
    · rw [hbe]
      exact np_linspace_first mn mx 257 (by norm_num)
    · rw [hbe]
      exact np_linspace_last mn mx

/-- **C8, witness.** The 1×1 image with channel values 0, 1, 2. -/
theorem claim8_witness :
    ∃ out, vis_hists imgRamp = Except.ok out ∧
      out.allbins.length = 257 ∧
      out.hr.bins = out.allbins ∧ out.hg.bins = out.allbins ∧
      out.hb.bins = out.allbins ∧
      ((0 : ℚ) < 2 →
        out.allbins.getD 0 0 = 0 ∧ out.allbins.getD 256 0 = 2) :=
  claim8_theorem imgRamp rfl 0 2 (by decide) (by decide)

/-! ### Claim C9 -/

/-- **C9.** For every pixel of an image, the HSV projection maps the
converted hue H, saturation S and value V to the coordinates
x = S·cos(2π·H), y = S·sin(2π·H), z = V (with the library's π and
cos/sin). -/
theorem claim9_theorem (L : ExtLib) (I : Image) (t : Nat)
    (ht : t < I.h * I.w) :
    (hsvX L I).getD t 0
        = (L.rgb2hsv (pixelAt I t)).x1 *
            L.cosf (2 * L.pif * (L.rgb2hsv (pixelAt I t)).x0) ∧
      (hsvY L I).getD t 0
        = (L.rgb2hsv (pixelAt I t)).x1 *
            L.sinf (2 * L.pif * (L.rgb2hsv (pixelAt I t)).x0) ∧
      (hsvZ L I).getD t 0 = (L.rgb2hsv (pixelAt I t)).x2 := by
  have hR : (hsvR L I).getD t 0 = (L.rgb2hsv (pixelAt I t)).x1 := by
    simp only [hsvR, hsvChan]
    rw [getD_map_range _ 0 _ t ht]
  have hP : (hsvP L I).getD t 0
      = 2 * L.pif * (L.rgb2hsv (pixelAt I t)).x0 := by
    simp only [hsvP, hsvChan, List.map_map]
    rw [getD_map_range _ 0 _ t ht]
    rfl
  refine ⟨?_, ?_, ?_⟩
  · simp only [hsvX]
    rw [getD_zipWith _ _ _ t (by rw [hsvR_length]; exact ht)
      (by rw [hsvP_length]; exact ht), hR, hP]
  · simp only [hsvY]
    rw [getD_zipWith _ _ _ t (by rw [hsvR_length]; exact ht)
      (by rw [hsvP_length]; exact ht), hR, hP]
  · simp only [hsvZ, hsvChan]
    rw [getD_map_range _ 0 _ t ht]

/-- **C9, witness.** Pixel 0 of the 1×1 ramp image under a concrete
library. -/
theorem claim9_witness :
    (hsvX testLib imgRamp).getD 0 0
        = (testLib.rgb2hsv (pixelAt imgRamp 0)).x1 *
            testLib.cosf
              (2 * testLib.pif * (testLib.rgb2hsv (pixelAt imgRamp 0)).x0) ∧
      (hsvY testLib imgRamp).getD 0 0
        = (testLib.rgb2hsv (pixelAt imgRamp 0)).x1 *
            testLib.sinf
              (2 * testLib.pif * (testLib.rgb2hsv (pixelAt imgRamp 0)).x0) ∧
      (hsvZ testLib imgRamp).getD 0 0
        = (testLib.rgb2hsv (pixelAt imgRamp 0)).x2 :=
  claim9_theorem testLib imgRamp 0 (by decide)

/-! ### Claim C10 -/

/-- **C10.** For every successful draw, vis_lab_cube scatters the sampled
pixels with the converted a-channel on the first axis, the b-channel on the
second axis, and lightness on the third (vertical) axis. -/
theorem claim10_theorem (L : ExtLib) (I : Image) (k : Nat) (rs : List Nat)
    (hperm : rs.Perm (List.range (I.h * I.w))) (hk : k ≤ I.h * I.w) :
    ∃ out, vis_lab_cube L I k rs = Except.ok out ∧ out.inds.length = k ∧
      ∀ m, m < k →
        out.xs.getD m 0 = (L.rgb2lab (pixelAt I (out.inds.getD m 0))).x1 ∧
        out.ys.getD m 0 = (L.rgb2lab (pixelAt I (out.inds.getD m 0))).x2 ∧
        out.zs.getD m 0 = (L.rgb2lab (pixelAt I (out.inds.getD m 0))).x0 := by
  obtain ⟨hkey, hlen, _, hmem⟩ :=
    np_random_choice_ok_spec rs (I.h * I.w) k hperm hk
  have heq : vis_lab_cube L I k rs = Except.ok
      { inds := rs.take k
        xs := (rs.take k).map fun t => (labChan L I 1).getD t 0
        ys := (rs.take k).map fun t => (labChan L I 2).getD t 0
        zs := (rs.take k).map fun t => (labChan L I 0).getD t 0
        cs := rescaleColors
          ((rs.take k).map fun t => (stackT I).getD t ⟨0, 0, 0⟩) } := by
    simp only [vis_lab_cube, hkey]
  refine ⟨_, heq, hlen, ?_⟩
  intro m hm
  have hmlt : m < (rs.take k).length := by rw [hlen]; exact hm
  have hidx : (rs.take k).getD m 0 < I.h * I.w :=
    hmem _ (getD_mem 0 (rs.take k) m hmlt)
  refine ⟨?_, ?_, ?_⟩
  · rw [getD_map (fun t => (labChan L I 1).getD t 0) 0 0 (rs.take k) m hmlt]
    simp only [labChan]
    rw [getD_map_range _ 0 _ _ hidx]
  · rw [getD_map (fun t => (labChan L I 2).getD t 0) 0 0 (rs.take k) m hmlt]
    simp only [labChan]
    rw [getD_map_range _ 0 _ _ hidx]
  · rw [getD_map (fun t => (labChan L I 0).getD t 0) 0 0 (rs.take k) m hmlt]
    simp only [labChan]
    rw [getD_map_range _ 0 _ _ hidx]

/-- **C10, witness.** Drawing the single pixel of the 1×1 ramp image. -/
theorem claim10_witness :
    ∃ out, vis_lab_cube testLib imgRamp 1 [0] = Except.ok out ∧
      out.inds.length = 1 ∧
      ∀ m, m < 1 →
        out.xs.getD m 0
            = (testLib.rgb2lab (pixelAt imgRamp (out.inds.getD m 0))).x1 ∧
        out.ys.getD m 0
            = (testLib.rgb2lab (pixelAt imgRamp (out.inds.getD m 0))).x2 ∧
        out.zs.getD m 0
            = (testLib.rgb2lab (pixelAt imgRamp (out.inds.getD m 0))).x0 :=
  claim10_theorem testLib imgRamp 1 [0] (by decide) (by decide)

end VisUtils
